import Mathlib

/-!
Verification of the CogniQuest application's state-flow, scoring,
persistence and chunking layer.

The definitions below are a shallow embedding of the TypeScript source:
  * `types.ts`                 — the data model (AppStatus, Question, QuizConfig, ...)
  * `App.tsx`                  — the application state machine (event handlers)
  * `components/ResultsScreen` — the results/scoring computation (`results` useMemo)
  * `services/db.ts`           — the IndexedDB persistence adapter (history store)
  * `services/geminiService`   — text chunking and per-chunk question apportionment

JavaScript numbers are modelled as `Nat`/`Int`/`ℚ` (all arithmetic appearing in
the embedded code is exact in double precision at the relevant scales, except
where noted at the definition).  JavaScript strings are modelled as Lean
`String` (UTF-16 code-unit details do not matter for any property proved here)
or, for the chunker which does index arithmetic, as `List Char`.
JavaScript objects used as maps with numeric keys are modelled as association
lists `List (Nat × α)`; the value `null` stored in the answers map is modelled
as `Option.none` inside, key absence as `lookupA _ _ = none` outside.
-/

namespace CogniQuest

/-! ## Data model (types.ts) -/

inductive QuestionType where
  | MCQ
  | TrueFalse
  | FillInTheBlank
deriving DecidableEq, Repr

inductive ConfidenceLevel where
  | Guessing
  | NotSure
  | Confident
  | Unrated
deriving DecidableEq, Repr

inductive MaterialType where
  | text
  | image
deriving DecidableEq, Repr

structure SourceMaterial where
  type : MaterialType
  content : String
  mimeType : Option String
  fileName : String
deriving DecidableEq, Repr

structure Question where
  type : QuestionType
  question : String
  options : Option (List String)
  correctAnswer : String
  explanation : String
  category : Option String
deriving DecidableEq, Repr

inductive TimerType where
  | overall
  | perQuestion
deriving DecidableEq, Repr

inductive Complexity where
  | Easy
  | Medium
  | Hard
  | Mixed
deriving DecidableEq, Repr

inductive Tone where
  | Creative
  | Accurate
  | Expanded
deriving DecidableEq, Repr

inductive FeedbackMode where
  | instant
  | endOfQuiz
deriving DecidableEq, Repr

inductive QuestionVariety where
  | MCQOnly
  | Varied
deriving DecidableEq, Repr

structure QuizConfig where
  numQuestions : Nat
  negativeMarking : Bool
  penalty : ℚ
  timerType : TimerType
  time : Nat
  complexity : Complexity
  tone : Tone
  feedbackMode : FeedbackMode
  questionVariety : QuestionVariety
deriving DecidableEq, Repr

structure Flashcard where
  front : String
  back : String
deriving DecidableEq, Repr

/-- `ChatContext.userAnswer` is `string | null | undefined` in the source:
`none` models `undefined`, `some none` models `null`. -/
structure ChatContext where
  question : Question
  userAnswer : Option (Option String)
  sourceMaterials : List SourceMaterial
deriving DecidableEq, Repr

inductive AppStatus where
  | INITIAL
  | DASHBOARD
  | CONFIGURING
  | GENERATING
  | IN_PROGRESS
  | COMPLETED
  | CHATTING
  | FLASHCARDS
deriving DecidableEq, Repr

/-! ## Numeric-keyed JS object maps -/

/-- Lookup in a numeric-keyed JS object (`m[k]`); `none` models `undefined`. -/
def lookupA {α : Type} : List (Nat × α) → Nat → Option α
  | [], _ => none
  | p :: t, k => if p.1 = k then some p.2 else lookupA t k

/-- The spread update `{ ...m, [k]: v }`: replaces the value at an existing
key, otherwise appends the new key. -/
def updA {α : Type} (m : List (Nat × α)) (k : Nat) (v : α) : List (Nat × α) :=
  if m.any (fun p => p.1 = k) then
    m.map (fun p => if p.1 = k then (k, v) else p)
  else
    m ++ [(k, v)]

/-! ## Answer-correctness rules

Three call sites in the source decide correctness of a recorded answer:
  * `ResultsScreen` (results useMemo), applied to attempted entries only;
  * `App.saveToHistory` (history score), applied to every question index via
    `userAnswers[i]?.trim()...` optional chaining;
  * `App.handleStartFlashcards` (incorrect-question selection), applied as an
    incorrectness filter that first excludes `null`/`undefined` answers.
Each is transcribed separately below.  `String.trim`/`String.toLower` model
the JavaScript `trim()`/`toLowerCase()` (identical on the ASCII range). -/

/-- `ResultsScreen` correctness test on an attempted (string) answer. -/
def resultsIsCorrect (q : Question) (userAnswer : String) : Bool :=
  match q.type with
  | QuestionType.FillInTheBlank =>
      userAnswer.trim.toLower == q.correctAnswer.trim.toLower
  | _ => userAnswer == q.correctAnswer

/-- `saveToHistory` correctness test on `userAnswers[i]` which may be a
string (`some (some s)`), `null` (`some none`) or `undefined` (`none`). -/
def historyIsCorrect (q : Question) (a : Option (Option String)) : Bool :=
  match q.type with
  | QuestionType.FillInTheBlank =>
      match a with
      | some (some s) => s.trim.toLower == q.correctAnswer.trim.toLower
      | _ => false
  | _ =>
      match a with
      | some (some s) => s == q.correctAnswer
      | _ => false

/-- `handleStartFlashcards` incorrect-question filter predicate. -/
def flashIsIncorrect (q : Question) (a : Option (Option String)) : Bool :=
  match a with
  | some (some s) =>
      match q.type with
      | QuestionType.FillInTheBlank =>
          !(s.trim.toLower == q.correctAnswer.trim.toLower)
      | _ => !(s == q.correctAnswer)
  | _ => false

/-- The correctness rule exactly as the specification words it:
Fill-in-the-Blank answers are compared after trimming whitespace and
lowercasing both sides; MCQ and True/False answers by exact string match. -/
def specCorrectnessRule (q : Question) (answer : String) : Bool :=
  match q.type with
  | QuestionType.FillInTheBlank =>
      answer.trim.toLower == q.correctAnswer.trim.toLower
  | QuestionType.MCQ => answer == q.correctAnswer
  | QuestionType.TrueFalse => answer == q.correctAnswer

/-! ## Results computation (`ResultsScreen`, results useMemo)

`categoryPerformance` and `timeTaken` are also computed there but are not the
subject of any claim and are omitted from the record. -/

structure QuizResults where
  score : ℚ
  totalQuestions : Nat
  percentage : ℚ
  confidentlyIncorrect : Nat
  attemptedQuestions : Nat
  correctAnswers : Nat
  incorrectAnswers : Nat
  skippedQuestions : Int
  incorrectQuestionsCount : Nat
deriving DecidableEq, Repr

/-- One attempted entry `(index, answer)` is correct when the question at
that index exists and `resultsIsCorrect` holds.  (The source would crash on
an out-of-range index; no claim concerns that case.) -/
def attemptedCorrect (quizData : List Question) (p : Nat × String) : Bool :=
  match quizData[p.1]? with
  | some q => resultsIsCorrect q p.2
  | none => false

def computeResults (quizData : List Question) (userAnswers : List (Nat × Option String))
    (userConfidence : List (Nat × ConfidenceLevel)) (quizConfig : QuizConfig) : QuizResults :=
  let totalQuestions := quizData.length
  let attemptedEntries : List (Nat × String) :=
    userAnswers.filterMap (fun p => p.2.map (fun a => (p.1, a)))
  let attemptedQuestions := attemptedEntries.length
  let skippedQuestions : Int := (totalQuestions : Int) - (attemptedQuestions : Int)
  let correctAnswers :=
    (attemptedEntries.filter (fun p => attemptedCorrect quizData p)).length
  let incorrectList :=
    attemptedEntries.filter (fun p =>
      match quizData[p.1]? with
      | some q => !resultsIsCorrect q p.2
      | none => false)
  let confidentlyIncorrect :=
    (incorrectList.filter (fun p => lookupA userConfidence p.1 == some ConfidenceLevel.Confident)).length
  let incorrectAnswers := attemptedQuestions - correctAnswers
  let penalty : ℚ :=
    if quizConfig.negativeMarking then (incorrectAnswers : ℚ) * quizConfig.penalty else 0
  let score : ℚ := max 0 ((correctAnswers : ℚ) - penalty)
  let percentage : ℚ :=
    if 0 < attemptedQuestions then (correctAnswers : ℚ) / (attemptedQuestions : ℚ) * 100 else 0
  { score := score
    totalQuestions := totalQuestions
    percentage := percentage
    confidentlyIncorrect := confidentlyIncorrect
    attemptedQuestions := attemptedQuestions
    correctAnswers := correctAnswers
    incorrectAnswers := incorrectAnswers
    skippedQuestions := skippedQuestions
    incorrectQuestionsCount := incorrectList.length }

/-! ## Example values (the source's `initialConfig` from App.tsx, and a
sample question) used to instantiate witnesses. -/

def initialConfig : QuizConfig :=
  { numQuestions := 10
    negativeMarking := false
    penalty := (25 : ℚ) / 100
    timerType := TimerType.overall
    time := 30
    complexity := Complexity.Medium
    tone := Tone.Accurate
    feedbackMode := FeedbackMode.endOfQuiz
    questionVariety := QuestionVariety.MCQOnly }

def sampleQuestion : Question :=
  { type := QuestionType.MCQ
    question := "What is the capital of France?"
    options := some ["Paris", "London", "Berlin", "Madrid"]
    correctAnswer := "Paris"
    explanation := "Paris is the capital of France."
    category := some "Geography" }

/-! ## Per-chunk question apportionment (`generateQuiz`, map-reduce branch)

In the source: `questionsPerChunk = Math.floor(totalQuestions / chunks.length)`,
`remainder = totalQuestions % chunks.length`, and chunk `i` requests
`questionsPerChunk + (i < remainder ? 1 : 0)` questions. -/

def chunkCount (n k i : Nat) : Nat :=
  n / k + if i < n % k then 1 else 0

def chunkCounts (n k : Nat) : List Nat :=
  (List.range k).map (chunkCount n k)

/-! ## Persistence adapter: history store (services/db.ts)

The IndexedDB `quiz_history` object store (keyPath `id`, autoIncrement) is
modelled as a list of records plus the auto-increment counter.  `put`
replaces the record with the matching key.  A `Partial<QuizHistoryItem>`
is modelled with one `Option` per field, and the merge
`{ ...existingItem, ...item, id }` takes the patch value where present. -/

structure QuizHistoryItem where
  id : Nat
  timestamp : Int
  topic : String
  score : Nat
  totalQuestions : Nat
  quizData : List Question
  userAnswers : List (Nat × Option String)
  userConfidence : List (Nat × ConfidenceLevel)
  quizConfig : QuizConfig
  sourceMaterials : Option (List SourceMaterial)
  performanceSummary : Option String
deriving DecidableEq, Repr

/-- The record handed to `saveQuizHistory` (`QuizHistoryItem` without `id`). -/
structure NewHistoryItem where
  timestamp : Int
  topic : String
  score : Nat
  totalQuestions : Nat
  quizData : List Question
  userAnswers : List (Nat × Option String)
  userConfidence : List (Nat × ConfidenceLevel)
  quizConfig : QuizConfig
  sourceMaterials : Option (List SourceMaterial)
  performanceSummary : Option String
deriving DecidableEq, Repr

def NewHistoryItem.toItem (d : NewHistoryItem) (id : Nat) : QuizHistoryItem :=
  { id := id
    timestamp := d.timestamp
    topic := d.topic
    score := d.score
    totalQuestions := d.totalQuestions
    quizData := d.quizData
    userAnswers := d.userAnswers
    userConfidence := d.userConfidence
    quizConfig := d.quizConfig
    sourceMaterials := d.sourceMaterials
    performanceSummary := d.performanceSummary }

/-- A partial history item (`id` excluded; the source forcibly resets it). -/
structure HistoryPatch where
  timestamp : Option Int := none
  topic : Option String := none
  score : Option Nat := none
  totalQuestions : Option Nat := none
  quizData : Option (List Question) := none
  userAnswers : Option (List (Nat × Option String)) := none
  userConfidence : Option (List (Nat × ConfidenceLevel)) := none
  quizConfig : Option QuizConfig := none
  sourceMaterials : Option (Option (List SourceMaterial)) := none
  performanceSummary : Option (Option String) := none
deriving DecidableEq, Repr

/-- The merge `{ ...existingItem, ...item, id }`. -/
def mergeItem (existing : QuizHistoryItem) (p : HistoryPatch) (id : Nat) : QuizHistoryItem :=
  { id := id
    timestamp := p.timestamp.getD existing.timestamp
    topic := p.topic.getD existing.topic
    score := p.score.getD existing.score
    totalQuestions := p.totalQuestions.getD existing.totalQuestions
    quizData := p.quizData.getD existing.quizData
    userAnswers := p.userAnswers.getD existing.userAnswers
    userConfidence := p.userConfidence.getD existing.userConfidence
    quizConfig := p.quizConfig.getD existing.quizConfig
    sourceMaterials := p.sourceMaterials.getD existing.sourceMaterials
    performanceSummary := p.performanceSummary.getD existing.performanceSummary }

structure HistoryStore where
  items : List QuizHistoryItem
  nextId : Nat
deriving DecidableEq, Repr

/-- `store.get(id)`. -/
def findHistory (st : HistoryStore) (id : Nat) : Option QuizHistoryItem :=
  st.items.find? (fun it => it.id = id)

/-- `saveQuizHistory`: `store.add(item)` with the auto-increment key;
returns the new store and the generated id. -/
def saveQuizHistory (st : HistoryStore) (d : NewHistoryItem) : HistoryStore × Nat :=
  ({ items := st.items ++ [d.toItem st.nextId], nextId := st.nextId + 1 }, st.nextId)

/-- `updateQuizHistory`: gets the existing item; if present, `put`s the merged
record (replacing the record with that key); otherwise rejects with
"History item not found" and the store is untouched. -/
def updateQuizHistory (st : HistoryStore) (id : Nat) (p : HistoryPatch) :
    Except String HistoryStore :=
  match findHistory st id with
  | some existing =>
      Except.ok { st with
        items := st.items.map (fun it => if it.id = id then mergeItem existing p id else it) }
  | none => Except.error "History item not found"

/-- `getQuizHistory`: all records, newest (largest timestamp) first. -/
def getQuizHistory (st : HistoryStore) : List QuizHistoryItem :=
  st.items.mergeSort (fun a b => b.timestamp ≤ a.timestamp)

def sampleHistoryItem : QuizHistoryItem :=
  { id := 7
    timestamp := 1000
    topic := "Old"
    score := 1
    totalQuestions := 1
    quizData := [sampleQuestion]
    userAnswers := [(0, some "Paris")]
    userConfidence := [(0, ConfidenceLevel.Confident)]
    quizConfig := initialConfig
    sourceMaterials := none
    performanceSummary := none }

/-! ## Application state (types.ts `AppState`) -/

structure AppState where
  status : AppStatus
  sourceMaterials : Option (List SourceMaterial)
  quizConfig : QuizConfig
  quizTitle : Option String
  currentHistoryId : Option Nat
  quizData : Option (List Question)
  userAnswers : List (Nat × Option String)
  userConfidence : List (Nat × ConfidenceLevel)
  currentQuestionIndex : Nat
  startTime : Option Int
  endTime : Option Int
  chatContext : Option ChatContext
  hints : List (Nat × String)
  loadingHints : List (Nat × Bool)
  performanceSummary : Option String
  isGeneratingSummary : Bool
  error : Option String
  flashcards : Option (List Flashcard)
  isGeneratingFlashcards : Bool
  isReviewingHistory : Bool
deriving DecidableEq, Repr

/-- `initialAppState` from App.tsx. -/
def initialAppState : AppState :=
  { status := AppStatus.INITIAL
    sourceMaterials := none
    quizConfig := initialConfig
    quizTitle := none
    currentHistoryId := none
    quizData := none
    userAnswers := []
    userConfidence := []
    currentQuestionIndex := 0
    startTime := none
    endTime := none
    chatContext := none
    hints := []
    loadingHints := []
    performanceSummary := none
    isGeneratingSummary := false
    error := none
    flashcards := none
    isGeneratingFlashcards := false
    isReviewingHistory := false }

/-- A partial quiz config, as handed to `handleConfigChange`. -/
structure QuizConfigPatch where
  numQuestions : Option Nat := none
  negativeMarking : Option Bool := none
  penalty : Option ℚ := none
  timerType : Option TimerType := none
  time : Option Nat := none
  complexity : Option Complexity := none
  tone : Option Tone := none
  feedbackMode : Option FeedbackMode := none
  questionVariety : Option QuestionVariety := none
deriving DecidableEq, Repr

/-- `{ ...prev.quizConfig, ...newConfig }`. -/
def mergeConfig (c : QuizConfig) (p : QuizConfigPatch) : QuizConfig :=
  { numQuestions := p.numQuestions.getD c.numQuestions
    negativeMarking := p.negativeMarking.getD c.negativeMarking
    penalty := p.penalty.getD c.penalty
    timerType := p.timerType.getD c.timerType
    time := p.time.getD c.time
    complexity := p.complexity.getD c.complexity
    tone := p.tone.getD c.tone
    feedbackMode := p.feedbackMode.getD c.feedbackMode
    questionVariety := p.questionVariety.getD c.questionVariety }

/-! ## Gateway degradation strings and error messages (App.tsx /
geminiService.ts) -/

def quizGenErrorMessage (msg : String) : String :=
  "Quiz Generation Failed: " ++ msg

def emptyQuizError : String :=
  "The generated quiz was empty or invalid. The source material may not have been suitable."

def flashGenErrorMessage (msg : String) : String :=
  "Flashcard Generation Failed: " ++ msg

def flashEmptyError : String :=
  "AI could not generate flashcards from the incorrect answers."

def hintApologyMessage : String :=
  "Sorry, I couldn't generate a hint right now."

/-- `generateHint` (geminiService): on success returns the trimmed model
text; its own try/catch turns every failure of the underlying AI call into
the fixed apology string instead of rethrowing.  `aiResult` stands for the
outcome of the underlying `ai.models.generateContent` call. -/
def generateHint (aiResult : Except String String) : String :=
  match aiResult with
  | Except.ok t => t.trim
  | Except.error _ => hintApologyMessage

/-- `handleStartFlashcards` incorrect-question selection:
`quizData.filter((q, index) => ...)`. -/
def incorrectQuestionsOf (quizData : List Question)
    (userAnswers : List (Nat × Option String)) : List Question :=
  (quizData.enum.filter (fun p => flashIsIncorrect p.2 (lookupA userAnswers p.1))).map
    (fun p => p.2)

/-! ## Event handlers (App.tsx)

Each `handle…` definition transcribes the body of the same-named handler.
Asynchronous gateway calls are split into a `…Begin` transition (the
optimistic update before `await`) and a `…Result` transition (the
continuation), with the gateway outcome passed in as an `Except`.
`Date.now()` values are passed in as `now` parameters. -/

def handleGoToDashboard (s : AppState) : AppState :=
  { s with status := AppStatus.DASHBOARD }

def handleStartNewConfig (_s : AppState) : AppState :=
  { initialAppState with status := AppStatus.INITIAL }

def handleReviewHistory (_s : AppState) (item : QuizHistoryItem) : AppState :=
  { initialAppState with
    status := AppStatus.COMPLETED
    quizData := some item.quizData
    userAnswers := item.userAnswers
    userConfidence := item.userConfidence
    quizConfig := item.quizConfig
    sourceMaterials := item.sourceMaterials
    quizTitle := some item.topic
    currentHistoryId := some item.id
    performanceSummary := item.performanceSummary
    startTime := some item.timestamp
    endTime := some item.timestamp
    isReviewingHistory := true }

def handleFileUploaded (s : AppState) (materials : List SourceMaterial) : AppState :=
  { s with
    status := AppStatus.CONFIGURING
    sourceMaterials := some materials
    error := none
    currentHistoryId := none
    quizTitle := none }

def handleConfigChange (s : AppState) (p : QuizConfigPatch) : AppState :=
  { s with quizConfig := mergeConfig s.quizConfig p }

/-- `handleStartQuiz` up to the `await`: guard on empty/absent materials,
then enter GENERATING with the error cleared. -/
def handleStartQuizBegin (s : AppState) : AppState :=
  match s.sourceMaterials with
  | none => s
  | some [] => s
  | some (_ :: _) => { s with status := AppStatus.GENERATING, error := none }

/-- `handleStartQuiz` after the `await`: on a non-empty question list enter
IN_PROGRESS with everything reset; an empty list is thrown and caught like a
gateway error; a gateway error returns to CONFIGURING with the message. -/
def handleStartQuizResult (s : AppState) (now : Int)
    (r : Except String (String × List Question)) : AppState :=
  match r with
  | Except.ok (title, questions) =>
      if questions.isEmpty then
        { s with status := AppStatus.CONFIGURING, error := some (quizGenErrorMessage emptyQuizError) }
      else
        { s with
          status := AppStatus.IN_PROGRESS
          quizTitle := some title
          quizData := some questions
          startTime := some now
          userAnswers := []
          userConfidence := []
          currentQuestionIndex := 0
          hints := []
          loadingHints := []
          performanceSummary := none
          isGeneratingSummary := false
          isReviewingHistory := false
          currentHistoryId := none }
  | Except.error msg =>
      { s with status := AppStatus.CONFIGURING, error := some (quizGenErrorMessage msg) }

def handleAnswerSelect (s : AppState) (questionIndex : Nat) (answer : String) : AppState :=
  { s with userAnswers := updA s.userAnswers questionIndex (some answer) }

def handleSkipAnswer (s : AppState) (questionIndex : Nat) : AppState :=
  { s with userAnswers := updA s.userAnswers questionIndex none }

def handleConfidenceSelect (s : AppState) (questionIndex : Nat)
    (confidence : ConfidenceLevel) : AppState :=
  { s with userConfidence := updA s.userConfidence questionIndex confidence }

/-- `handleGetHint` up to the `await`: guard on absent materials/quiz, then
set the per-question loading flag. -/
def handleGetHintBegin (s : AppState) (questionIndex : Nat) : AppState :=
  match s.sourceMaterials, s.quizData with
  | some _, some _ => { s with loadingHints := updA s.loadingHints questionIndex true }
  | _, _ => s

/-- `handleGetHint` after the `await`: `generateHint` resolves (it never
rejects for an AI failure — it returns the apology string); a truthy
(non-empty) hint is stored, and `finally` clears the loading flag. -/
def handleGetHintResult (s : AppState) (questionIndex : Nat)
    (aiResult : Except String String) : AppState :=
  let hint := generateHint aiResult
  let s1 := if hint = "" then s else { s with hints := updA s.hints questionIndex hint }
  { s1 with loadingHints := updA s1.loadingHints questionIndex false }

def handleNextQuestion (s : AppState) : AppState :=
  match s.quizData with
  | some qd =>
      if s.currentQuestionIndex < qd.length - 1 then
        { s with currentQuestionIndex := s.currentQuestionIndex + 1 }
      else s
  | none => s

def handlePrevQuestion (s : AppState) : AppState :=
  if 0 < s.currentQuestionIndex then
    { s with currentQuestionIndex := s.currentQuestionIndex - 1 }
  else s

def handleSubmitQuiz (s : AppState) (now : Int) : AppState :=
  { s with
    status := AppStatus.COMPLETED
    endTime := some now
    isGeneratingSummary := false
    performanceSummary := none
    error := none }

def handleGenerateSummary (s : AppState) : AppState :=
  if s.status = AppStatus.COMPLETED then { s with isGeneratingSummary := true } else s

/-- `handleRestart`: configure a new quiz with the same content. -/
def handleRestart (s : AppState) : AppState :=
  { initialAppState with
    status := AppStatus.CONFIGURING
    sourceMaterials := s.sourceMaterials }

/-- `handleRetakeQuiz`: back to IN_PROGRESS with answers reset;
`currentHistoryId` is deliberately kept so resubmission overwrites the
existing record. -/
def handleRetakeQuiz (s : AppState) (now : Int) : AppState :=
  { s with
    status := AppStatus.IN_PROGRESS
    userAnswers := []
    userConfidence := []
    currentQuestionIndex := 0
    startTime := some now
    endTime := none
    hints := []
    loadingHints := []
    performanceSummary := none
    isGeneratingSummary := false
    error := none
    isReviewingHistory := false }

def handleStartChat (s : AppState) (q : Question) : AppState :=
  match s.quizData, s.sourceMaterials with
  | some qd, some mats =>
      let userAnswer :=
        match qd.findIdx? (fun x => x.question == q.question) with
        | some i => lookupA s.userAnswers i
        | none => none
      { s with
        status := AppStatus.CHATTING
        chatContext := some { question := q, userAnswer := userAnswer, sourceMaterials := mats } }
  | _, _ => s

def handleExitChat (s : AppState) : AppState :=
  { s with status := AppStatus.COMPLETED, chatContext := none }

/-- `handleStartFlashcards` up to the `await`: guard, then set the flag. -/
def handleFlashcardsBegin (s : AppState) : AppState :=
  match s.quizData, s.sourceMaterials with
  | some _, some _ => { s with isGeneratingFlashcards := true, error := none }
  | _, _ => s

/-- The early return when the incorrect-question set is empty: only the
flag is cleared (the gateway is never called). -/
def handleFlashcardsEmpty (s : AppState) : AppState :=
  { s with isGeneratingFlashcards := false }

/-- `handleStartFlashcards` after the `await`: a non-empty card list enters
FLASHCARDS; an empty list is thrown and caught like a gateway error, which
stores a message in `error` and clears the flag. -/
def handleFlashcardsResult (s : AppState) (r : Except String (List Flashcard)) : AppState :=
  match r with
  | Except.ok cards =>
      if cards.isEmpty then
        { s with
          isGeneratingFlashcards := false
          error := some (flashGenErrorMessage flashEmptyError) }
      else
        { s with
          status := AppStatus.FLASHCARDS
          flashcards := some cards
          isGeneratingFlashcards := false }
  | Except.error msg =>
      { s with
        isGeneratingFlashcards := false
        error := some (flashGenErrorMessage msg) }

def handleExitFlashcards (s : AppState) : AppState :=
  { s with status := AppStatus.COMPLETED, flashcards := none }

/-! ## saveToHistory (App.tsx) -/

/-- The raw correct count computed in `saveToHistory`
(`quizData.forEach((q, i) => ...)`). -/
def historyCorrectCount (quizData : List Question)
    (userAnswers : List (Nat × Option String)) : Nat :=
  (quizData.enum.filter (fun p => historyIsCorrect p.2 (lookupA userAnswers p.1))).length

/-- Topic derivation in `saveToHistory` (`quizTitle || "Generated Quiz"`,
falling back to file names or the first line of the first text source when
the title is falsy). -/
def deriveTopic (quizTitle : Option String)
    (sourceMaterials : Option (List SourceMaterial)) : String :=
  let t0 :=
    match quizTitle with
    | some t => if t = "" then "Generated Quiz" else t
    | none => "Generated Quiz"
  let titleFalsy : Bool :=
    match quizTitle with
    | some t => t == ""
    | none => true
  match sourceMaterials with
  | some (m0 :: rest) =>
      if titleFalsy then
        if m0.fileName != "" && m0.fileName != "User Prompt" then
          if 0 < rest.length then
            m0.fileName ++ " + " ++ toString rest.length ++ " more"
          else m0.fileName
        else if m0.type == MaterialType.text then
          ((m0.content.splitOn "\n").headD "").take 50
        else t0
      else t0
  | _ => t0

/-- All fields present: the full item `saveToHistory` passes to
`updateQuizHistory` (whose parameter type is the partial). -/
def patchOfNewItem (d : NewHistoryItem) : HistoryPatch :=
  { timestamp := some d.timestamp
    topic := some d.topic
    score := some d.score
    totalQuestions := some d.totalQuestions
    quizData := some d.quizData
    userAnswers := some d.userAnswers
    userConfidence := some d.userConfidence
    quizConfig := some d.quizConfig
    sourceMaterials := some d.sourceMaterials
    performanceSummary := some d.performanceSummary }

/-- `saveToHistory`: no-op without quiz data or in review mode; otherwise
builds the history item and either updates the record at
`currentHistoryId`, or inserts a new record and stores the generated id in
`currentHistoryId`.  Returns the new app state and store. -/
def saveToHistory (s : AppState) (st : HistoryStore) (now : Int) : AppState × HistoryStore :=
  match s.quizData with
  | none => (s, st)
  | some quizData =>
      if s.isReviewingHistory then (s, st)
      else
        let historyItem : NewHistoryItem :=
          { timestamp := now
            topic := deriveTopic s.quizTitle s.sourceMaterials
            score := historyCorrectCount quizData s.userAnswers
            totalQuestions := quizData.length
            quizData := quizData
            userAnswers := s.userAnswers
            userConfidence := s.userConfidence
            quizConfig := s.quizConfig
            sourceMaterials := s.sourceMaterials
            performanceSummary := s.performanceSummary }
        match s.currentHistoryId with
        | some id =>
            match updateQuizHistory st id (patchOfNewItem historyItem) with
            | Except.ok st2 => (s, st2)
            | Except.error _ => (s, st)
        | none =>
            let res := saveQuizHistory st historyItem
            ({ s with currentHistoryId := some res.2 }, res.1)

/-! ## The action alphabet and the step function

One constructor per user/async event handled in App.tsx.  `assignHistoryId`
is the state update performed by `saveToHistory` when it stores the
freshly generated id. -/

inductive Action where
  | goToDashboard
  | startNewConfig
  | reviewHistory (item : QuizHistoryItem)
  | fileUploaded (materials : List SourceMaterial)
  | configChange (p : QuizConfigPatch)
  | startQuizBegin
  | startQuizResult (now : Int) (r : Except String (String × List Question))
  | answerSelect (i : Nat) (a : String)
  | skipAnswer (i : Nat)
  | confidenceSelect (i : Nat) (c : ConfidenceLevel)
  | getHintBegin (i : Nat)
  | getHintResult (i : Nat) (aiResult : Except String String)
  | nextQuestion
  | prevQuestion
  | submitQuiz (now : Int)
  | generateSummary
  | restart
  | retake (now : Int)
  | startChat (q : Question)
  | exitChat
  | flashcardsBegin
  | flashcardsEmpty
  | flashcardsResult (r : Except String (List Flashcard))
  | exitFlashcards
  | assignHistoryId (id : Nat)

def step (a : Action) (s : AppState) : AppState :=
  match a with
  | Action.goToDashboard => handleGoToDashboard s
  | Action.startNewConfig => handleStartNewConfig s
  | Action.reviewHistory item => handleReviewHistory s item
  | Action.fileUploaded materials => handleFileUploaded s materials
  | Action.configChange p => handleConfigChange s p
  | Action.startQuizBegin => handleStartQuizBegin s
  | Action.startQuizResult now r => handleStartQuizResult s now r
  | Action.answerSelect i a => handleAnswerSelect s i a
  | Action.skipAnswer i => handleSkipAnswer s i
  | Action.confidenceSelect i c => handleConfidenceSelect s i c
  | Action.getHintBegin i => handleGetHintBegin s i
  | Action.getHintResult i r => handleGetHintResult s i r
  | Action.nextQuestion => handleNextQuestion s
  | Action.prevQuestion => handlePrevQuestion s
  | Action.submitQuiz now => handleSubmitQuiz s now
  | Action.generateSummary => handleGenerateSummary s
  | Action.restart => handleRestart s
  | Action.retake now => handleRetakeQuiz s now
  | Action.startChat q => handleStartChat s q
  | Action.exitChat => handleExitChat s
  | Action.flashcardsBegin => handleFlashcardsBegin s
  | Action.flashcardsEmpty => handleFlashcardsEmpty s
  | Action.flashcardsResult r => handleFlashcardsResult s r
  | Action.exitFlashcards => handleExitFlashcards s
  | Action.assignHistoryId id => { s with currentHistoryId := some id }

/-- UI availability: the retake intent is only emitted by `ResultsScreen`,
which is rendered in COMPLETED (and as the CHATTING/FLASHCARDS fallback) and
bails out to a loading placeholder — without a retake button — when
`quizData` is null.  Every other handler is modelled as available anywhere
(each is internally guarded exactly as in the source). -/
def avail : Action → AppState → Prop
  | Action.retake _, s =>
      (s.status = AppStatus.COMPLETED ∨ s.status = AppStatus.CHATTING ∨
        s.status = AppStatus.FLASHCARDS) ∧ s.quizData.isSome = true
  | _, _ => True

/-- Payload well-formedness: a history item handed to `handleReviewHistory`
comes from the history store, whose records are only ever created from a
non-empty `quizData` (the GENERATING success guard). -/
def actionWF : Action → Prop
  | Action.reviewHistory item => item.quizData ≠ []
  | _ => True

/-- Whenever `quizData` is present it is non-empty. -/
def quizDataOK : Option (List Question) → Prop
  | some qd => qd ≠ []
  | none => True

/-- The C8 state invariant: `quizData` is never the empty list, and while
IN_PROGRESS the quiz data is present and `currentQuestionIndex` is within
`[0, len(quizData) - 1]`. -/
def StateInv (s : AppState) : Prop :=
  quizDataOK s.quizData ∧
  (s.status = AppStatus.IN_PROGRESS →
    ∃ qd, s.quizData = some qd ∧ s.currentQuestionIndex < qd.length)

/-- A typical COMPLETED state (one-question quiz, answered correctly),
used to instantiate witnesses. -/
def sampleCompletedState : AppState :=
  { initialAppState with
    status := AppStatus.COMPLETED
    quizData := some [sampleQuestion]
    sourceMaterials := some []
    userAnswers := [(0, some "Paris")]
    quizTitle := some "Sample Quiz"
    startTime := some 0
    endTime := some 5 }

/-! ## Text chunking (`splitTextIntoChunks`, geminiService.ts)

The string is modelled as `List Char` because the loop does index
arithmetic.  JS `lastIndexOf(pat, pos)` returns the largest start index
`≤ max(pos, 0)` of an occurrence, or `-1`; `substring(a, b)` clamps both
arguments to `[0, len]` and swaps them when out of order.  The float
product `maxChars * 0.7` in the split-point tests is modelled exactly by
the rational `7 * maxChars / 10`; all comparisons against it are scaled by
10 so they stay in `ℤ` (for the default `maxChars = 30000` the float
product is exactly representable, so the scaling is faithful).  The
while-loop runs on explicit fuel; `none` models running out of fuel. -/

def occursAt (pat s : List Char) (i : Nat) : Bool :=
  (s.drop i).take pat.length == pat

def lastIndexOfFrom (s pat : List Char) : Nat → Int
  | 0 => if occursAt pat s 0 then 0 else -1
  | n + 1 => if occursAt pat s (n + 1) then ((n + 1 : Nat) : Int) else lastIndexOfFrom s pat n

/-- `s.lastIndexOf(pat, pos)`. -/
def lastIndexOf (s pat : List Char) (pos : Int) : Int :=
  lastIndexOfFrom s pat pos.toNat

/-- `s.substring(a, b)`. -/
def jsSubstring (s : List Char) (a b : Int) : List Char :=
  let len : Int := s.length
  let a2 := min (max a 0) len
  let b2 := min (max b 0) len
  let lo := min a2 b2
  let hi := max a2 b2
  (s.drop lo.toNat).take (hi - lo).toNat

def parPat : List Char := ['\n', '\n']

def sentPat : List Char := ['.', ' ']

/-- One loop iteration's split point: `splitIndex` starts at
`startIndex + maxChars`, moves back to the last paragraph break past 70% of
the window, else just past the last sentence break past 70% of the window,
else stays. -/
def chunkSplitIndex (text : List Char) (maxChars : Nat) (startIndex : Int) : Int :=
  let si0 : Int := startIndex + (maxChars : Int)
  let lastParagraph := lastIndexOf text parPat si0
  if 10 * lastParagraph > 10 * startIndex + 7 * (maxChars : Int) then lastParagraph
  else
    let lastSentence := lastIndexOf text sentPat si0
    if 10 * lastSentence > 10 * startIndex + 7 * (maxChars : Int) then lastSentence + 1
    else si0

/-- The while-loop of `splitTextIntoChunks`. -/
def chunksLoop (text : List Char) (maxChars overlap : Nat) :
    Nat → Int → Option (List (List Char))
  | 0, _ => none
  | fuel + 1, startIndex =>
      if startIndex < (text.length : Int) then
        if (text.length : Int) - startIndex ≤ (maxChars : Int) then
          some [jsSubstring text startIndex (text.length : Int)]
        else
          let si := chunkSplitIndex text maxChars startIndex
          match chunksLoop text maxChars overlap fuel (si - (overlap : Int)) with
          | some rest => some (jsSubstring text startIndex si :: rest)
          | none => none
      else some []

def splitTextIntoChunks (text : List Char) (maxChars : Nat := 30000)
    (overlap : Nat := 1000) : Option (List (List Char)) :=
  if (text.length : Int) ≤ (maxChars : Int) then some [text]
  else chunksLoop text maxChars overlap (text.length + 1) 0

/-- The C10 counterexample text: 30000 letters followed by ". b", so the
last ". " starts exactly at index 30000 (= the default `maxChars`) and
there is no paragraph break. -/
def oversizedText : List Char := List.replicate 30000 'a' ++ ['.', ' ', 'b']

/-! ## Theorems -/

theorem lookupA_updA_self {α : Type} (m : List (Nat × α)) (k : Nat) (v : α) :
    lookupA (updA m k v) k = some v := by
  unfold updA
  by_cases h : m.any (fun p => p.1 = k) = true
  · rw [if_pos h]
    induction m with
    | nil => simp at h
    | cons p t ih =>
        rw [List.map_cons]
        by_cases hp : p.1 = k
        · rw [if_pos hp]
          simp [lookupA]
        · rw [if_neg hp]
          have ht : t.any (fun p => p.1 = k) = true := by
            simp only [List.any_cons, decide_eq_true_eq, Bool.or_eq_true] at h
            rcases h with h1 | h2
            · exact absurd h1 hp
            · exact h2
          simpa [lookupA, hp] using ih ht
  · rw [if_neg h]
    have h' : m.any (fun p => p.1 = k) = false := Bool.eq_false_iff.mpr h
    clear h
    induction m with
    | nil => simp [lookupA]
    | cons p t ih =>
        simp only [List.any_cons, Bool.or_eq_false_iff, decide_eq_false_iff_not] at h'
        simpa [lookupA, h'.1] using ih h'.2

theorem lookupA_updA_ne {α : Type} (m : List (Nat × α)) (k j : Nat) (v : α)
    (hjk : j ≠ k) : lookupA (updA m k v) j = lookupA m j := by
  unfold updA
  by_cases h : m.any (fun p => p.1 = k) = true
  · rw [if_pos h]
    clear h
    induction m with
    | nil => rfl
    | cons p t ih =>
        rw [List.map_cons]
        by_cases hp : p.1 = k
        · rw [if_pos hp]
          have hpj : ¬ p.1 = j := by rw [hp]; exact fun hx => hjk hx.symm
          simpa [lookupA, Ne.symm hjk, hpj] using ih
        · rw [if_neg hp]
          by_cases hpj : p.1 = j
          · simp [lookupA, hpj]
          · simpa [lookupA, hpj] using ih
  · rw [if_neg h]
    clear h
    induction m with
    | nil => simp [lookupA, Ne.symm hjk]
    | cons p t ih =>
        by_cases hpj : p.1 = j
        · simp [lookupA, hpj]
        · simpa [lookupA, hpj] using ih

/-- C1: For every quiz result computation, the score equals
`max(0, correctCount − (negativeMarking ? incorrectCount × penalty : 0))`;
in particular, for all inputs (any penalty magnitude, any answer pattern)
the computed score is never negative. -/
theorem score_formula_and_nonneg (quizData : List Question)
    (userAnswers : List (Nat × Option String))
    (userConfidence : List (Nat × ConfidenceLevel)) (quizConfig : QuizConfig) :
    (computeResults quizData userAnswers userConfidence quizConfig).score =
      max 0 (((computeResults quizData userAnswers userConfidence quizConfig).correctAnswers : ℚ) -
        (if quizConfig.negativeMarking then
          ((computeResults quizData userAnswers userConfidence quizConfig).incorrectAnswers : ℚ) *
            quizConfig.penalty
        else 0)) ∧
    0 ≤ (computeResults quizData userAnswers userConfidence quizConfig).score := by
  refine ⟨rfl, ?_⟩
  exact le_max_left 0 _

/-- C2: Correctness of a recorded answer is decided by one rule — trimmed,
lowercased comparison for Fill-in-the-Blank, exact string match for MCQ and
True/False — and the tests used in the results computation
(`resultsIsCorrect`), the history score computation (`historyIsCorrect`) and
the flashcard incorrect-question selection (`flashIsIncorrect`) all agree
with that rule on every recorded (string) answer, while `null`/absent
answers are never counted correct (nor selected as incorrect). -/
theorem correctness_rule_uniform (q : Question) (s : String) :
    resultsIsCorrect q s = specCorrectnessRule q s ∧
    historyIsCorrect q (some (some s)) = specCorrectnessRule q s ∧
    historyIsCorrect q (some none) = false ∧
    historyIsCorrect q none = false ∧
    flashIsIncorrect q (some (some s)) = !(specCorrectnessRule q s) ∧
    flashIsIncorrect q (some none) = false ∧
    flashIsIncorrect q none = false := by
  cases hq : q.type <;>
    simp [resultsIsCorrect, historyIsCorrect, flashIsIncorrect, specCorrectnessRule, hq]

/-- C3: In the results computation, explicit-null answers and absent entries
both count as not attempted (toward `skippedQuestions`) and neither is
counted correct or incorrect: attempted counts exactly the string-valued
entries, correct + incorrect = attempted, skipped = total − attempted; and
if every recorded answer is null then attempted = 0, accuracy = 0,
score = 0 and skipped = total. -/
theorem skipped_and_absent_not_attempted (quizData : List Question)
    (userAnswers : List (Nat × Option String))
    (userConfidence : List (Nat × ConfidenceLevel)) (quizConfig : QuizConfig) :
    (computeResults quizData userAnswers userConfidence quizConfig).attemptedQuestions =
      (userAnswers.filter (fun p => p.2.isSome)).length ∧
    (computeResults quizData userAnswers userConfidence quizConfig).correctAnswers +
      (computeResults quizData userAnswers userConfidence quizConfig).incorrectAnswers =
      (computeResults quizData userAnswers userConfidence quizConfig).attemptedQuestions ∧
    (computeResults quizData userAnswers userConfidence quizConfig).skippedQuestions =
      (quizData.length : Int) -
        ((computeResults quizData userAnswers userConfidence quizConfig).attemptedQuestions : Int) ∧
    ((∀ p ∈ userAnswers, p.2 = (none : Option String)) →
      (computeResults quizData userAnswers userConfidence quizConfig).attemptedQuestions = 0 ∧
      (computeResults quizData userAnswers userConfidence quizConfig).percentage = 0 ∧
      (computeResults quizData userAnswers userConfidence quizConfig).score = 0 ∧
      (computeResults quizData userAnswers userConfidence quizConfig).skippedQuestions =
        (quizData.length : Int) ∧
      (computeResults quizData userAnswers userConfidence quizConfig).correctAnswers = 0) := by
  refine ⟨?_, ?_, ?_, ?_⟩
  · simp only [computeResults]
    rw [List.length_filterMap_eq_countP, ← List.countP_eq_length_filter]
    apply List.countP_congr
    intro p _
    cases p.2 <;> simp
  · have hle : (computeResults quizData userAnswers userConfidence quizConfig).correctAnswers ≤
        (computeResults quizData userAnswers userConfidence quizConfig).attemptedQuestions := by
      simp only [computeResults]
      exact List.length_filter_le _ _
    simp only [computeResults] at hle ⊢
    omega
  · rfl
  · intro hall
    have he : userAnswers.filterMap (fun p => p.2.map (fun a => (p.1, a))) = [] := by
      rw [List.filterMap_eq_nil_iff]
      intro p hp
      rw [hall p hp]
      rfl
    simp [computeResults, he]

/-- Witness for C3: with one question whose recorded answer is explicit
null, attempted = 0, accuracy = 0, score = 0, skipped = total = 1. -/
theorem skipped_scenario_witness :
    (computeResults [sampleQuestion] [(0, (none : Option String))] [] initialConfig).attemptedQuestions = 0 ∧
    (computeResults [sampleQuestion] [(0, (none : Option String))] [] initialConfig).percentage = 0 ∧
    (computeResults [sampleQuestion] [(0, (none : Option String))] [] initialConfig).score = 0 ∧
    (computeResults [sampleQuestion] [(0, (none : Option String))] [] initialConfig).skippedQuestions = 1 ∧
    (computeResults [sampleQuestion] [(0, (none : Option String))] [] initialConfig).correctAnswers = 0 := by
  have h := (skipped_and_absent_not_attempted [sampleQuestion]
      [(0, (none : Option String))] [] initialConfig).2.2.2 (by decide)
  simpa using h

theorem chunkCounts_getD (n k i : Nat) (h : i < k) :
    (chunkCounts n k).getD i 0 = chunkCount n k i := by
  unfold chunkCounts
  rw [List.getD_eq_getElem?_getD, List.getElem?_map, List.getElem?_range h]
  rfl

theorem sum_map_range_eq (f : Nat → Nat) (k : Nat) :
    ((List.range k).map f).sum = ∑ i ∈ Finset.range k, f i := by
  induction k with
  | zero => simp
  | succ n ih =>
      rw [List.range_succ, List.map_append, List.sum_append, Finset.sum_range_succ, ih]
      simp

/-- C4: For numQuestions = N and k > 1 chunks, quiz generation requests
floor(N/k) questions per chunk plus one extra for each of the first
(N mod k) chunks; the per-chunk counts sum to N, the extras go to the first
chunks (counts are non-increasing), and any two counts differ by at most 1. -/
theorem chunk_apportionment (n k : Nat) (hk : 1 < k) :
    (chunkCounts n k).length = k ∧
    (chunkCounts n k).sum = n ∧
    (∀ i, i < k → (chunkCounts n k).getD i 0 = n / k + (if i < n % k then 1 else 0)) ∧
    (∀ i j, i < k → j < k → i ≤ j →
      (chunkCounts n k).getD j 0 ≤ (chunkCounts n k).getD i 0 ∧
      (chunkCounts n k).getD i 0 ≤ (chunkCounts n k).getD j 0 + 1) := by
  have hk0 : 0 < k := Nat.lt_of_lt_of_le Nat.zero_lt_one (Nat.le_of_lt hk)
  refine ⟨by simp [chunkCounts], ?_, ?_, ?_⟩
  · unfold chunkCounts
    rw [sum_map_range_eq]
    unfold chunkCount
    rw [Finset.sum_add_distrib, Finset.sum_const, Finset.card_range, Finset.sum_boole]
    have hfilter : (Finset.range k).filter (fun i => i < n % k) = Finset.range (n % k) := by
      ext x
      simp only [Finset.mem_filter, Finset.mem_range]
      have := Nat.mod_lt n hk0
      omega
    rw [hfilter]
    simp only [Finset.card_range, smul_eq_mul, Nat.cast_id]
    exact Nat.div_add_mod n k
  · intro i hi
    exact chunkCounts_getD n k i hi
  · intro i j hi hj hij
    rw [chunkCounts_getD n k i hi, chunkCounts_getD n k j hj]
    unfold chunkCount
    refine ⟨?_, ?_⟩ <;> split_ifs <;> omega

/-- Witness for C4 at N = 10, k = 3: counts are 4, 3, 3 and sum to 10. -/
theorem chunk_apportionment_witness :
    (chunkCounts 10 3).sum = 10 ∧ (chunkCounts 10 3).length = 3 :=
  ⟨(chunk_apportionment 10 3 (by decide)).2.1, (chunk_apportionment 10 3 (by decide)).1⟩

theorem find?_update_self (l : List QuizHistoryItem) (id : Nat) (r : QuizHistoryItem)
    (hr : r.id = id) (hex : (l.find? (fun it => it.id = id)).isSome) :
    (l.map (fun it => if it.id = id then r else it)).find? (fun it => it.id = id) = some r := by
  induction l with
  | nil => simp at hex
  | cons it t ih =>
      rw [List.map_cons]
      by_cases h : it.id = id
      · rw [if_pos h]
        simp [List.find?, hr]
      · rw [if_neg h]
        rw [List.find?_cons_of_neg _ (by simp [h])]
        rw [List.find?_cons_of_neg _ (by simp [h])] at hex
        exact ih hex

theorem find?_update_ne (l : List QuizHistoryItem) (id j : Nat) (r : QuizHistoryItem)
    (hr : r.id = id) (hj : j ≠ id) :
    (l.map (fun it => if it.id = id then r else it)).find? (fun it => it.id = j) =
      l.find? (fun it => it.id = j) := by
  induction l with
  | nil => rfl
  | cons it t ih =>
      rw [List.map_cons]
      by_cases h : it.id = id
      · rw [if_pos h]
        rw [List.find?_cons_of_neg _ (by simp [hr, Ne.symm hj]),
            List.find?_cons_of_neg _ (by simp [h, Ne.symm hj])]
        exact ih
      · rw [if_neg h]
        by_cases hij : it.id = j
        · rw [List.find?_cons_of_pos _ (by simp [hij]), List.find?_cons_of_pos _ (by simp [hij])]
        · rw [List.find?_cons_of_neg _ (by simp [hij]), List.find?_cons_of_neg _ (by simp [hij])]
          exact ih

/-- C6: update-history(id, partial) merges the given fields onto the existing
record — every field named in the partial takes the new value, every other
field keeps its previous value, and other records are untouched, so a
subsequent get-history still contains the updated record — and fails with
the not-found error when no record has that id. -/
theorem updateQuizHistory_spec (st : HistoryStore) (id : Nat) (p : HistoryPatch) :
    (∀ existing, findHistory st id = some existing →
      ∃ st', updateQuizHistory st id p = Except.ok st' ∧
        findHistory st' id = some (mergeItem existing p id) ∧
        (∀ j, j ≠ id → findHistory st' j = findHistory st j) ∧
        mergeItem existing p id ∈ getQuizHistory st' ∧
        (∀ v, p.topic = some v → (mergeItem existing p id).topic = v) ∧
        (p.topic = none → (mergeItem existing p id).topic = existing.topic) ∧
        (p.timestamp = none → (mergeItem existing p id).timestamp = existing.timestamp) ∧
        (p.score = none → (mergeItem existing p id).score = existing.score) ∧
        (p.totalQuestions = none → (mergeItem existing p id).totalQuestions = existing.totalQuestions) ∧
        (p.quizData = none → (mergeItem existing p id).quizData = existing.quizData) ∧
        (p.userAnswers = none → (mergeItem existing p id).userAnswers = existing.userAnswers) ∧
        (p.userConfidence = none → (mergeItem existing p id).userConfidence = existing.userConfidence) ∧
        (p.quizConfig = none → (mergeItem existing p id).quizConfig = existing.quizConfig) ∧
        (p.sourceMaterials = none → (mergeItem existing p id).sourceMaterials = existing.sourceMaterials) ∧
        (p.performanceSummary = none → (mergeItem existing p id).performanceSummary = existing.performanceSummary) ∧
        (mergeItem existing p id).id = id) ∧
    (findHistory st id = none →
      updateQuizHistory st id p = Except.error "History item not found") := by
  constructor
  · intro existing hfind
    refine ⟨{ st with
        items := st.items.map (fun it => if it.id = id then mergeItem existing p id else it) },
      ?_, ?_, ?_, ?_, ?_, ?_, ?_, ?_, ?_, ?_, ?_, ?_, ?_, ?_, ?_, rfl⟩
    · unfold updateQuizHistory
      rw [hfind]
    · unfold findHistory at hfind ⊢
      exact find?_update_self st.items id (mergeItem existing p id) rfl (by rw [hfind]; rfl)
    · intro j hj
      unfold findHistory
      exact find?_update_ne st.items id j (mergeItem existing p id) rfl hj
    · unfold getQuizHistory
      rw [List.mem_mergeSort]
      apply List.mem_of_find?_eq_some (p := fun it => decide (it.id = id))
      unfold findHistory at hfind
      exact find?_update_self st.items id (mergeItem existing p id) rfl (by rw [hfind]; rfl)
    · intro v hv
      simp [mergeItem, hv]
    all_goals (intro hnone; simp [mergeItem, hnone])
  · intro hnone
    unfold updateQuizHistory
    rw [hnone]

/-- Witness for C6: a store holding the record with id 7; updating topic to
"New" succeeds, the merged record has the new topic, and other records are
untouched. -/
theorem updateQuizHistory_witness :
    ∃ st', updateQuizHistory { items := [sampleHistoryItem], nextId := 8 } 7 { topic := some "New" } =
        Except.ok st' ∧
      findHistory st' 7 = some (mergeItem sampleHistoryItem { topic := some "New" } 7) ∧
      (∀ j, j ≠ 7 → findHistory st' j = findHistory { items := [sampleHistoryItem], nextId := 8 } j) ∧
      mergeItem sampleHistoryItem { topic := some "New" } 7 ∈ getQuizHistory st' ∧
      (∀ v, (some "New" : Option String) = some v →
        (mergeItem sampleHistoryItem { topic := some "New" } 7).topic = v) := by
  have h := (updateQuizHistory_spec { items := [sampleHistoryItem], nextId := 8 } 7
      { topic := some "New" }).1 sampleHistoryItem rfl
  obtain ⟨st', h1, h2, h3, h4, h5, _⟩ := h
  exact ⟨st', h1, h2, h3, h4, h5⟩

theorem quizGenErrorMessage_ne_empty (msg : String) : quizGenErrorMessage msg ≠ "" := by
  intro h
  have hlen := congrArg String.length h
  rw [quizGenErrorMessage, String.length_append] at hlen
  have h24 : ("Quiz Generation Failed: " : String).length = 24 := rfl
  have h0 : ("" : String).length = 0 := rfl
  omega

/-- C5: When the generation gateway throws during start-quiz, the state
machine returns to CONFIGURING with a non-empty error message stored in
`error`, and `quizData` is left unchanged — in particular it remains null
when it was null. -/
theorem generation_failure_reverts (s : AppState) (now : Int) (msg : String) :
    (handleStartQuizResult s now (Except.error msg)).status = AppStatus.CONFIGURING ∧
    (∃ e, (handleStartQuizResult s now (Except.error msg)).error = some e ∧ e ≠ "") ∧
    (handleStartQuizResult s now (Except.error msg)).quizData = s.quizData ∧
    (s.quizData = none → (handleStartQuizResult s now (Except.error msg)).quizData = none) := by
  refine ⟨rfl, ⟨quizGenErrorMessage msg, rfl, quizGenErrorMessage_ne_empty msg⟩, rfl, ?_⟩
  intro h
  exact h

/-- Witness for C5 at the initial state (quizData null before the attempt). -/
theorem generation_failure_reverts_witness :
    (handleStartQuizResult initialAppState 0 (Except.error "network down")).status =
      AppStatus.CONFIGURING ∧
    (handleStartQuizResult initialAppState 0 (Except.error "network down")).quizData = none :=
  ⟨(generation_failure_reverts initialAppState 0 "network down").1,
   (generation_failure_reverts initialAppState 0 "network down").2.2.2 rfl⟩

/-- C7: retake keeps `currentHistoryId`; a fresh quiz (new materials, restart,
new-config, or a successful generation) resets it to undefined; it stays
undefined across every in-quiz action until submission, when `saveToHistory`
with an undefined id stores the id generated by the history save (and with a
defined id performs an update, keeping that id). -/
theorem currentHistoryId_lifecycle (s : AppState) (now : Int) (i : Nat) (ans : String)
    (c : ConfidenceLevel) (r : Except String String) (mats : List SourceMaterial)
    (p : QuizConfigPatch) (title msg : String) (questions : List Question) (st : HistoryStore) :
    (handleRetakeQuiz s now).currentHistoryId = s.currentHistoryId ∧
    (∀ qd, s.quizData = some qd → s.isReviewingHistory = false → s.currentHistoryId = none →
      (saveToHistory s st now).1.currentHistoryId = some st.nextId) ∧
    (∀ qd id0, s.quizData = some qd → s.isReviewingHistory = false →
      s.currentHistoryId = some id0 →
      (saveToHistory s st now).1.currentHistoryId = some id0) ∧
    (handleStartQuizResult s now (Except.ok (title, questions))).currentHistoryId =
      (if questions.isEmpty then s.currentHistoryId else none) ∧
    (handleStartQuizResult s now (Except.error msg)).currentHistoryId = s.currentHistoryId ∧
    (handleRestart s).currentHistoryId = none ∧
    (handleStartNewConfig s).currentHistoryId = none ∧
    (handleFileUploaded s mats).currentHistoryId = none ∧
    (handleConfigChange s p).currentHistoryId = s.currentHistoryId ∧
    (handleStartQuizBegin s).currentHistoryId = s.currentHistoryId ∧
    (handleAnswerSelect s i ans).currentHistoryId = s.currentHistoryId ∧
    (handleSkipAnswer s i).currentHistoryId = s.currentHistoryId ∧
    (handleConfidenceSelect s i c).currentHistoryId = s.currentHistoryId ∧
    (handleGetHintBegin s i).currentHistoryId = s.currentHistoryId ∧
    (handleGetHintResult s i r).currentHistoryId = s.currentHistoryId ∧
    (handleNextQuestion s).currentHistoryId = s.currentHistoryId ∧
    (handlePrevQuestion s).currentHistoryId = s.currentHistoryId ∧
    (handleSubmitQuiz s now).currentHistoryId = s.currentHistoryId := by
  refine ⟨rfl, ?_, ?_, ?_, rfl, rfl, rfl, rfl, rfl, ?_, rfl, rfl, rfl, ?_, ?_, ?_, ?_, rfl⟩
  · intro qd hq hrev hid
    simp [saveToHistory, hq, hrev, hid, saveQuizHistory]
  · intro qd id0 hq hrev hid
    simp only [saveToHistory, hq, hrev, hid]
    cases h2 : updateQuizHistory st id0 (patchOfNewItem _) with
    | ok st2 => simp [hid]
    | error e => simp [hid]
  · by_cases hq : questions.isEmpty <;> simp [handleStartQuizResult, hq]
  · unfold handleStartQuizBegin
    cases s.sourceMaterials with
    | none => rfl
    | some l => cases l with
      | nil => rfl
      | cons m t => rfl
  · unfold handleGetHintBegin
    cases s.sourceMaterials with
    | none =>
        cases s.quizData with
        | none => rfl
        | some qd => rfl
    | some mats =>
        cases s.quizData with
        | none => rfl
        | some qd => rfl
  · by_cases h : generateHint r = "" <;> simp [handleGetHintResult, h]
  · unfold handleNextQuestion
    cases s.quizData with
    | none => rfl
    | some qd =>
        dsimp only
        by_cases hlt : s.currentQuestionIndex < qd.length - 1
        · rw [if_pos hlt]
        · rw [if_neg hlt]
  · unfold handlePrevQuestion
    by_cases h0 : 0 < s.currentQuestionIndex
    · rw [if_pos h0]
    · rw [if_neg h0]

/-- Witness for C7: first submission against an empty store assigns id 1
(the generated key), and retake keeps the id field. -/
theorem currentHistoryId_lifecycle_witness :
    (saveToHistory sampleCompletedState { items := [], nextId := 1 } 5).1.currentHistoryId =
      some 1 ∧
    (handleRetakeQuiz sampleCompletedState 6).currentHistoryId =
      sampleCompletedState.currentHistoryId :=
  ⟨(currentHistoryId_lifecycle sampleCompletedState 5 0 "" ConfidenceLevel.Unrated
      (Except.ok "") [] {} "" "" [] { items := [], nextId := 1 }).2.1
      [sampleQuestion] rfl rfl rfl,
   (currentHistoryId_lifecycle sampleCompletedState 6 0 "" ConfidenceLevel.Unrated
      (Except.ok "") [] {} "" "" [] { items := [], nextId := 1 }).1⟩

/-- C9 counterexample: at a concrete state, when the underlying AI call for
a hint fails, the hints map does NOT stay without an entry — the fixed
apology string that `generateHint` degrades to is truthy and is stored as
the hint for that question (the loading flag is cleared as claimed). -/
theorem hint_failure_counterexample :
    ¬ (lookupA (handleGetHintResult initialAppState 0 (Except.error "network down")).hints 0 =
        none) ∧
    lookupA (handleGetHintResult initialAppState 0 (Except.error "network down")).hints 0 =
      some hintApologyMessage ∧
    lookupA (handleGetHintResult initialAppState 0 (Except.error "network down")).loadingHints 0 =
      some false := by
  refine ⟨?_, ?_, ?_⟩ <;> decide

/-- C9 (amended): when the underlying hint-generation call fails, the fixed
apology string is stored as the hint for that question (not left absent),
the corresponding loading flag is cleared, no other hint or loading entry
changes, and the failure is not surfaced in `error` (status also
unchanged). -/
theorem hint_failure_stores_apology (s : AppState) (i : Nat) (msg : String) :
    lookupA (handleGetHintResult s i (Except.error msg)).hints i = some hintApologyMessage ∧
    lookupA (handleGetHintResult s i (Except.error msg)).loadingHints i = some false ∧
    (handleGetHintResult s i (Except.error msg)).error = s.error ∧
    (handleGetHintResult s i (Except.error msg)).status = s.status ∧
    (∀ j, j ≠ i →
      lookupA (handleGetHintResult s i (Except.error msg)).hints j = lookupA s.hints j) ∧
    (∀ j, j ≠ i →
      lookupA (handleGetHintResult s i (Except.error msg)).loadingHints j =
        lookupA s.loadingHints j) := by
  have hne : ¬ (hintApologyMessage = "") := by decide
  simp only [handleGetHintResult, generateHint, if_neg hne]
  refine ⟨?_, ?_, by trivial, by trivial, ?_, ?_⟩
  · exact lookupA_updA_self s.hints i hintApologyMessage
  · exact lookupA_updA_self s.loadingHints i false
  · intro j hj
    exact lookupA_updA_ne s.hints i j hintApologyMessage hj
  · intro j hj
    exact lookupA_updA_ne s.loadingHints i j false hj

/-- Witness for the amended C9: at the initial state, index 1 is untouched
while index 0 receives the apology hint. -/
theorem hint_failure_stores_apology_witness :
    lookupA (handleGetHintResult initialAppState 0 (Except.error "x")).hints 1 =
      lookupA initialAppState.hints 1 ∧
    lookupA (handleGetHintResult initialAppState 0 (Except.error "x")).hints 0 =
      some hintApologyMessage :=
  ⟨(hint_failure_stores_apology initialAppState 0 "x").2.2.2.2.1 1 (by decide),
   (hint_failure_stores_apology initialAppState 0 "x").1⟩

theorem stateInv_preserve (s s' : AppState) (hq : s'.quizData = s.quizData)
    (hst : s'.status = s.status) (hidx : s'.currentQuestionIndex = s.currentQuestionIndex)
    (h : StateInv s) : StateInv s' := by
  obtain ⟨hG, hP⟩ := h
  constructor
  · rw [hq]
    exact hG
  · intro hs
    rw [hst] at hs
    obtain ⟨qd, h1, h2⟩ := hP hs
    exact ⟨qd, by rw [hq]; exact h1, by rw [hidx]; exact h2⟩

theorem stateInv_not_inprogress (s' : AppState) (hst : s'.status ≠ AppStatus.IN_PROGRESS)
    (hG : quizDataOK s'.quizData) : StateInv s' :=
  ⟨hG, fun hs => absurd hs hst⟩

/-- C8: While IN_PROGRESS, `currentQuestionIndex` is always within
`[0, len(quizData) - 1]`: the invariant `StateInv` is preserved by every
available, well-formed action; the transitions entering IN_PROGRESS
(generation success and retake) set the index to 0 with a non-empty
`quizData`; next only increments when the index is below `len - 1`; prev
only decrements when it is above 0. -/
theorem currentQuestionIndex_invariant (s : AppState) (a : Action) (now : Int)
    (hInv : StateInv s) (hAvail : avail a s) (hWF : actionWF a) :
    StateInv (step a s) ∧
    (∀ qd, s.quizData = some qd →
      (s.currentQuestionIndex < qd.length - 1 →
        (handleNextQuestion s).currentQuestionIndex = s.currentQuestionIndex + 1) ∧
      (¬ s.currentQuestionIndex < qd.length - 1 →
        (handleNextQuestion s).currentQuestionIndex = s.currentQuestionIndex)) ∧
    ((0 < s.currentQuestionIndex →
        (handlePrevQuestion s).currentQuestionIndex = s.currentQuestionIndex - 1) ∧
     (s.currentQuestionIndex = 0 → handlePrevQuestion s = s)) ∧
    (∀ title questions, questions ≠ [] →
      (handleStartQuizResult s now (Except.ok (title, questions))).currentQuestionIndex = 0 ∧
      (handleStartQuizResult s now (Except.ok (title, questions))).quizData = some questions ∧
      (handleStartQuizResult s now (Except.ok (title, questions))).status =
        AppStatus.IN_PROGRESS) ∧
    (handleRetakeQuiz s now).currentQuestionIndex = 0 ∧
    (handleRetakeQuiz s now).quizData = s.quizData := by
  obtain ⟨hG, hP⟩ := hInv
  refine ⟨?_, ?_, ?_, ?_, rfl, rfl⟩
  · cases a with
    | goToDashboard =>
        exact stateInv_not_inprogress _ (by simp [step, handleGoToDashboard]) hG
    | startNewConfig =>
        exact stateInv_not_inprogress _ (by simp [step, handleStartNewConfig]) trivial
    | reviewHistory item =>
        exact stateInv_not_inprogress _ (by simp [step, handleReviewHistory]) hWF
    | fileUploaded materials =>
        exact stateInv_not_inprogress _ (by simp [step, handleFileUploaded]) hG
    | configChange p =>
        exact stateInv_preserve s _ rfl rfl rfl ⟨hG, hP⟩
    | startQuizBegin =>
        show StateInv (handleStartQuizBegin s)
        unfold handleStartQuizBegin
        cases s.sourceMaterials with
        | none => exact ⟨hG, hP⟩
        | some l =>
            cases l with
            | nil => exact ⟨hG, hP⟩
            | cons m t =>
                dsimp only
                exact stateInv_not_inprogress _ (by simp) hG
    | startQuizResult now2 r =>
        show StateInv (handleStartQuizResult s now2 r)
        unfold handleStartQuizResult
        cases r with
        | error msg => exact stateInv_not_inprogress _ (by simp) hG
        | ok pr =>
            obtain ⟨title, questions⟩ := pr
            dsimp only
            by_cases hq : questions.isEmpty
            · rw [if_pos hq]
              exact stateInv_not_inprogress _ (by simp) hG
            · rw [if_neg hq]
              have hne : questions ≠ [] := by simpa using hq
              refine ⟨hne, ?_⟩
              intro _
              exact ⟨questions, rfl, List.length_pos.mpr hne⟩
    | answerSelect i a => exact stateInv_preserve s _ rfl rfl rfl ⟨hG, hP⟩
    | skipAnswer i => exact stateInv_preserve s _ rfl rfl rfl ⟨hG, hP⟩
    | confidenceSelect i c => exact stateInv_preserve s _ rfl rfl rfl ⟨hG, hP⟩
    | getHintBegin i =>
        show StateInv (handleGetHintBegin s i)
        unfold handleGetHintBegin
        cases hm : s.sourceMaterials with
        | none =>
            cases s.quizData with
            | none => exact ⟨hG, hP⟩
            | some qd => exact ⟨hG, hP⟩
        | some mats =>
            cases hqd : s.quizData with
            | none => exact ⟨hG, hP⟩
            | some qd =>
                dsimp only
                exact stateInv_preserve s _ hqd.symm rfl rfl ⟨hG, hP⟩
    | getHintResult i r =>
        show StateInv (handleGetHintResult s i r)
        simp only [handleGetHintResult]
        by_cases h : generateHint r = ""
        · simp only [if_pos h]
          exact stateInv_preserve s _ rfl rfl rfl ⟨hG, hP⟩
        · simp only [if_neg h]
          exact stateInv_preserve s _ rfl rfl rfl ⟨hG, hP⟩
    | nextQuestion =>
        show StateInv (handleNextQuestion s)
        unfold handleNextQuestion
        cases hq : s.quizData with
        | none => exact ⟨hG, hP⟩
        | some qd =>
            dsimp only
            by_cases hlt : s.currentQuestionIndex < qd.length - 1
            · rw [if_pos hlt]
              refine ⟨hq ▸ hG, ?_⟩
              intro _
              refine ⟨qd, rfl, ?_⟩
              dsimp only
              omega
            · rw [if_neg hlt]
              exact ⟨hG, hP⟩
    | prevQuestion =>
        show StateInv (handlePrevQuestion s)
        unfold handlePrevQuestion
        by_cases h0 : 0 < s.currentQuestionIndex
        · rw [if_pos h0]
          refine ⟨hG, ?_⟩
          intro hs
          obtain ⟨qd, h1, h2⟩ := hP hs
          refine ⟨qd, h1, ?_⟩
          dsimp only
          omega
        · rw [if_neg h0]
          exact ⟨hG, hP⟩
    | submitQuiz now2 =>
        exact stateInv_not_inprogress _ (by simp [step, handleSubmitQuiz]) hG
    | generateSummary =>
        show StateInv (handleGenerateSummary s)
        unfold handleGenerateSummary
        by_cases h : s.status = AppStatus.COMPLETED
        · rw [if_pos h]
          exact stateInv_not_inprogress _ (by simp [h]) hG
        · rw [if_neg h]
          exact ⟨hG, hP⟩
    | restart =>
        exact stateInv_not_inprogress _ (by simp [step, handleRestart]) trivial
    | retake now2 =>
        obtain ⟨hstat, hsome⟩ := hAvail
        obtain ⟨qd, hqd⟩ := Option.isSome_iff_exists.mp hsome
        refine ⟨hG, ?_⟩
        intro _
        refine ⟨qd, hqd, ?_⟩
        show 0 < qd.length
        rw [hqd] at hG
        exact List.length_pos.mpr hG
    | startChat q =>
        show StateInv (handleStartChat s q)
        unfold handleStartChat
        cases hqd : s.quizData with
        | none =>
            cases s.sourceMaterials with
            | none => exact ⟨hG, hP⟩
            | some mats => exact ⟨hG, hP⟩
        | some qd =>
            cases s.sourceMaterials with
            | none => exact ⟨hG, hP⟩
            | some mats =>
                dsimp only
                exact stateInv_not_inprogress _ (by simp) (hqd ▸ hG)
    | exitChat =>
        exact stateInv_not_inprogress _ (by simp [step, handleExitChat]) hG
    | flashcardsBegin =>
        show StateInv (handleFlashcardsBegin s)
        unfold handleFlashcardsBegin
        cases hqd : s.quizData with
        | none =>
            cases s.sourceMaterials with
            | none => exact ⟨hG, hP⟩
            | some mats => exact ⟨hG, hP⟩
        | some qd =>
            cases s.sourceMaterials with
            | none => exact ⟨hG, hP⟩
            | some mats =>
                dsimp only
                exact stateInv_preserve s _ hqd.symm rfl rfl ⟨hG, hP⟩
    | flashcardsEmpty => exact stateInv_preserve s _ rfl rfl rfl ⟨hG, hP⟩
    | flashcardsResult r =>
        show StateInv (handleFlashcardsResult s r)
        unfold handleFlashcardsResult
        cases r with
        | error msg => exact stateInv_preserve s _ rfl rfl rfl ⟨hG, hP⟩
        | ok cards =>
            dsimp only
            by_cases hc : cards.isEmpty
            · rw [if_pos hc]
              exact stateInv_preserve s _ rfl rfl rfl ⟨hG, hP⟩
            · rw [if_neg hc]
              exact stateInv_not_inprogress _ (by simp) hG
    | exitFlashcards =>
        exact stateInv_not_inprogress _ (by simp [step, handleExitFlashcards]) hG
    | assignHistoryId id => exact stateInv_preserve s _ rfl rfl rfl ⟨hG, hP⟩
  · intro qd hq
    constructor
    · intro hlt
      unfold handleNextQuestion
      rw [hq]
      dsimp only
      rw [if_pos hlt]
    · intro hlt
      unfold handleNextQuestion
      rw [hq]
      dsimp only
      rw [if_neg hlt]
  · constructor
    · intro h0
      unfold handlePrevQuestion
      rw [if_pos h0]
    · intro h0
      unfold handlePrevQuestion
      rw [if_neg (by omega)]
  · intro title questions hne
    have hq : questions.isEmpty = false := by simpa using hne
    refine ⟨?_, ?_, ?_⟩ <;> simp [handleStartQuizResult, hq]

/-- Witness for C8: a retake from a sample COMPLETED state preserves the
invariant and resets the index to 0. -/
theorem currentQuestionIndex_invariant_witness :
    StateInv (step (Action.retake 6) sampleCompletedState) ∧
    (handleRetakeQuiz sampleCompletedState 6).currentQuestionIndex = 0 := by
  have hInv : StateInv sampleCompletedState := by
    constructor
    · intro hc
      simp at hc
    · intro h
      simp [sampleCompletedState, initialAppState] at h
  have h := currentQuestionIndex_invariant sampleCompletedState (Action.retake 6) 6 hInv
    ⟨Or.inl rfl, rfl⟩ trivial
  exact ⟨h.1, h.2.2.2.2.1⟩

theorem lastIndexOfFrom_le (s pat : List Char) (n : Nat) :
    lastIndexOfFrom s pat n ≤ (n : Int) := by
  induction n with
  | zero =>
      unfold lastIndexOfFrom
      split <;> omega
  | succ m ih =>
      unfold lastIndexOfFrom
      split
      · push_cast
        omega
      · push_cast at ih ⊢
        omega

theorem lastIndexOf_le (s pat : List Char) (pos : Int) (hpos : 0 ≤ pos) :
    lastIndexOf s pat pos ≤ pos := by
  unfold lastIndexOf
  have h := lastIndexOfFrom_le s pat pos.toNat
  have h2 : ((pos.toNat : Nat) : Int) = pos := Int.toNat_of_nonneg hpos
  omega

theorem lastIndexOfFrom_of_occursAt (s pat : List Char) (n : Nat)
    (h : occursAt pat s n = true) : lastIndexOfFrom s pat n = (n : Int) := by
  cases n with
  | zero =>
      unfold lastIndexOfFrom
      rw [if_pos h]
      simp
  | succ m =>
      unfold lastIndexOfFrom
      rw [if_pos h]

theorem lastIndexOfFrom_none (s pat : List Char) (n : Nat)
    (h : ∀ i, i ≤ n → occursAt pat s i = false) : lastIndexOfFrom s pat n = -1 := by
  induction n with
  | zero =>
      unfold lastIndexOfFrom
      rw [if_neg]
      rw [h 0 (Nat.le_refl 0)]
      simp
  | succ m ih =>
      unfold lastIndexOfFrom
      rw [if_neg (by rw [h (m + 1) (Nat.le_refl _)]; simp)]
      exact ih (fun i hi => h i (Nat.le_trans hi (Nat.le_succ m)))

theorem chunkSplitIndex_gt (text : List Char) (maxChars : Nat) (startIndex : Int)
    (hm : 0 < maxChars) :
    10 * startIndex + 7 * (maxChars : Int) < 10 * chunkSplitIndex text maxChars startIndex := by
  unfold chunkSplitIndex
  dsimp only
  split
  · omega
  · split
    · omega
    · omega

theorem chunkSplitIndex_le (text : List Char) (maxChars : Nat) (startIndex : Int)
    (h0 : 0 ≤ startIndex) :
    chunkSplitIndex text maxChars startIndex ≤ startIndex + (maxChars : Int) + 1 := by
  have hpar := lastIndexOf_le text parPat (startIndex + (maxChars : Int)) (by omega)
  have hsent := lastIndexOf_le text sentPat (startIndex + (maxChars : Int)) (by omega)
  unfold chunkSplitIndex
  dsimp only
  split
  · omega
  · split
    · omega
    · omega

theorem jsSubstring_length_le (s : List Char) (a b : Int) (h0 : 0 ≤ a) (hab : a ≤ b) :
    ((jsSubstring s a b).length : Int) ≤ b - a := by
  unfold jsSubstring
  dsimp only
  rw [List.length_take, List.length_drop]
  omega

theorem chunksLoop_total (text : List Char) (maxChars overlap : Nat)
    (hm : 0 < maxChars) (hov : 10 * (overlap : Int) ≤ 7 * (maxChars : Int)) :
    ∀ (fuel : Nat) (startIndex : Int), 0 ≤ startIndex →
      (text.length : Int) - startIndex < (fuel : Int) → 1 ≤ fuel →
      ∃ chunks, chunksLoop text maxChars overlap fuel startIndex = some chunks ∧
        ∀ c ∈ chunks, (c.length : Int) ≤ (maxChars : Int) + 1 := by
  intro fuel
  induction fuel with
  | zero =>
      intro s h0 hf h1
      omega
  | succ fuel ih =>
      intro s h0 hf _
      by_cases hs : s < (text.length : Int)
      case neg =>
        refine ⟨[], ?_, by simp⟩
        unfold chunksLoop
        rw [if_neg hs]
      case pos =>
        by_cases hrem : (text.length : Int) - s ≤ (maxChars : Int)
        · refine ⟨[jsSubstring text s (text.length : Int)], ?_, ?_⟩
          · unfold chunksLoop
            rw [if_pos hs, if_pos hrem]
          · intro c hc
            rw [List.mem_singleton] at hc
            subst hc
            have := jsSubstring_length_le text s (text.length : Int) h0 (by omega)
            omega
        · have hgt := chunkSplitIndex_gt text maxChars s hm
          have hle := chunkSplitIndex_le text maxChars s h0
          have hs' : 0 ≤ chunkSplitIndex text maxChars s - (overlap : Int) := by omega
          have hfuel2 :
              (text.length : Int) - (chunkSplitIndex text maxChars s - (overlap : Int)) <
                (fuel : Int) := by
            push_cast at hf ⊢
            omega
          have hfuel1 : 1 ≤ fuel := by
            have hsil : chunkSplitIndex text maxChars s - (overlap : Int) ≤
                (text.length : Int) := by omega
            omega
          obtain ⟨rest, hrest, hrestlen⟩ :=
            ih (chunkSplitIndex text maxChars s - (overlap : Int)) hs' hfuel2 hfuel1
          refine ⟨jsSubstring text s (chunkSplitIndex text maxChars s) :: rest, ?_, ?_⟩
          · unfold chunksLoop
            rw [if_pos hs, if_neg hrem]
            dsimp only
            rw [hrest]
          · intro c hc
            rcases List.mem_cons.mp hc with hc | hc
            · subst hc
              have := jsSubstring_length_le text s (chunkSplitIndex text maxChars s) h0
                (by omega)
              omega
            · exact hrestlen c hc

theorem chunksLoop_succ_lt (text : List Char) (maxChars overlap fuel : Nat) (s : Int)
    (hs : s < (text.length : Int)) (hrem : ¬ ((text.length : Int) - s ≤ (maxChars : Int))) :
    chunksLoop text maxChars overlap (fuel + 1) s =
      match chunksLoop text maxChars overlap fuel
          (chunkSplitIndex text maxChars s - (overlap : Int)) with
      | some rest => some (jsSubstring text s (chunkSplitIndex text maxChars s) :: rest)
      | none => none := by
  conv_lhs => unfold chunksLoop
  rw [if_pos hs, if_neg hrem]

theorem chunksLoop_succ_last (text : List Char) (maxChars overlap fuel : Nat) (s : Int)
    (hs : s < (text.length : Int)) (hrem : (text.length : Int) - s ≤ (maxChars : Int)) :
    chunksLoop text maxChars overlap (fuel + 1) s =
      some [jsSubstring text s (text.length : Int)] := by
  conv_lhs => unfold chunksLoop
  rw [if_pos hs, if_pos hrem]

/-- C10 counterexample: at the default parameters (maxChars = 30000,
overlap = 1000) and the concrete input `oversizedText`, the sentence-split
branch produces a first chunk of length 30001 — strictly more than
maxChars, refuting "every produced chunk has length at most maxChars". -/
theorem chunk_oversize_counterexample :
    splitTextIntoChunks oversizedText =
      some [jsSubstring oversizedText 0 30001, jsSubstring oversizedText 29001 30003] ∧
    (jsSubstring oversizedText 0 30001).length = 30001 ∧
    30000 < (jsSubstring oversizedText 0 30001).length := by
  have hlen : oversizedText.length = 30003 := by
    unfold oversizedText
    rw [List.length_append, List.length_replicate]
    simp
  have hdrop : oversizedText.drop 30000 = ['.', ' ', 'b'] := by
    have h := List.drop_left (List.replicate 30000 'a') ['.', ' ', 'b']
    rw [List.length_replicate] at h
    unfold oversizedText
    exact h
  have hsent : occursAt sentPat oversizedText 30000 = true := by
    unfold occursAt
    rw [hdrop]
    rfl
  have hnopar : ∀ i, occursAt parPat oversizedText i = false := by
    intro i
    cases hocc : occursAt parPat oversizedText i
    · rfl
    · exfalso
      unfold occursAt at hocc
      have heq : (oversizedText.drop i).take parPat.length = parPat := eq_of_beq hocc
      have h1 : '\n' ∈ (oversizedText.drop i).take parPat.length := by
        rw [heq]
        unfold parPat
        simp
      have hmem : '\n' ∈ oversizedText :=
        List.mem_of_mem_drop (List.mem_of_mem_take h1)
      unfold oversizedText at hmem
      rcases List.mem_append.mp hmem with h2 | h2
      · exact absurd (List.eq_of_mem_replicate h2) (by decide)
      · exact absurd h2 (by decide)
  have hpar : lastIndexOf oversizedText parPat 30000 = -1 := by
    unfold lastIndexOf
    rw [show (30000 : Int).toNat = 30000 from rfl]
    exact lastIndexOfFrom_none oversizedText parPat 30000 (fun i _ => hnopar i)
  have hsentIdx : lastIndexOf oversizedText sentPat 30000 = 30000 := by
    unfold lastIndexOf
    rw [show (30000 : Int).toNat = 30000 from rfl]
    rw [lastIndexOfFrom_of_occursAt oversizedText sentPat 30000 hsent]
    norm_num
  have hsplit : chunkSplitIndex oversizedText 30000 0 = 30001 := by
    unfold chunkSplitIndex
    dsimp only
    rw [show (0 : Int) + ((30000 : Nat) : Int) = 30000 by norm_num]
    rw [hpar]
    rw [if_neg (by norm_num)]
    rw [hsentIdx]
    rw [if_pos (by norm_num)]
    norm_num
  have hs2 : (29001 : Int) < (oversizedText.length : Int) := by
    rw [hlen]; norm_num
  have hrem2 : (oversizedText.length : Int) - 29001 ≤ ((30000 : Nat) : Int) := by
    rw [hlen]; norm_num
  have hstep2 : chunksLoop oversizedText 30000 1000 oversizedText.length 29001 =
      some [jsSubstring oversizedText 29001 30003] := by
    rw [hlen]
    have h := chunksLoop_succ_last oversizedText 30000 1000 30002 29001 hs2 hrem2
    rw [hlen] at h
    exact h
  have hs1 : (0 : Int) < (oversizedText.length : Int) := by
    rw [hlen]; norm_num
  have hrem1 : ¬ ((oversizedText.length : Int) - 0 ≤ ((30000 : Nat) : Int)) := by
    rw [hlen]; norm_num
  have hstep1 := chunksLoop_succ_lt oversizedText 30000 1000 oversizedText.length 0 hs1 hrem1
  rw [hsplit] at hstep1
  rw [show (30001 : Int) - ((1000 : Nat) : Int) = 29001 by norm_num] at hstep1
  rw [hstep2] at hstep1
  have hloop : splitTextIntoChunks oversizedText =
      some [jsSubstring oversizedText 0 30001, jsSubstring oversizedText 29001 30003] := by
    unfold splitTextIntoChunks
    rw [if_neg (by rw [hlen]; norm_num)]
    rw [hstep1]
  refine ⟨hloop, ?_, ?_⟩
  · unfold jsSubstring
    dsimp only
    rw [List.length_take, List.length_drop, hlen]
    omega
  · unfold jsSubstring
    dsimp only
    rw [List.length_take, List.length_drop, hlen]
    omega

/-- C10 (amended): the chunker terminates — with overlap ≤ 0.7·maxChars and
maxChars > 0 the loop completes within `length + 1` iterations, because
each iteration advances the start index by at least
0.7·maxChars − overlap > 0 — and every produced chunk has length at most
maxChars + 1 (the sentence-split branch may include one character past the
window). -/
theorem splitTextIntoChunks_spec (text : List Char) (maxChars overlap : Nat)
    (hm : 0 < maxChars) (hov : 10 * (overlap : Int) ≤ 7 * (maxChars : Int)) :
    (∃ chunks, splitTextIntoChunks text maxChars overlap = some chunks ∧
      ∀ c ∈ chunks, (c.length : Int) ≤ (maxChars : Int) + 1) ∧
    (∀ startIndex : Int,
      7 * (maxChars : Int) - 10 * (overlap : Int) ≤
        10 * (chunkSplitIndex text maxChars startIndex - (overlap : Int) - startIndex)) := by
  constructor
  · unfold splitTextIntoChunks
    by_cases h : (text.length : Int) ≤ (maxChars : Int)
    · rw [if_pos h]
      refine ⟨[text], rfl, ?_⟩
      intro c hc
      rw [List.mem_singleton] at hc
      subst hc
      omega
    · rw [if_neg h]
      exact chunksLoop_total text maxChars overlap hm hov (text.length + 1) 0 le_rfl
        (by push_cast; omega) (by omega)
  · intro startIndex
    have := chunkSplitIndex_gt text maxChars startIndex hm
    omega

/-- Witness for the amended C10 at the default parameters and a one-letter
text. -/
theorem splitTextIntoChunks_spec_witness :
    (∃ chunks, splitTextIntoChunks ['a'] 30000 1000 = some chunks ∧
      ∀ c ∈ chunks, (c.length : Int) ≤ ((30000 : Nat) : Int) + 1) ∧
    (∀ startIndex : Int,
      7 * ((30000 : Nat) : Int) - 10 * ((1000 : Nat) : Int) ≤
        10 * (chunkSplitIndex ['a'] 30000 startIndex - ((1000 : Nat) : Int) - startIndex)) :=
  splitTextIntoChunks_spec ['a'] 30000 1000 (by norm_num) (by norm_num)

end CogniQuest
